import Mathlib

/-!
# The todo service (`main.go`): handlers over a document collection

A shallow embedding of the four todo handlers of `main.go` (`fetchTodos`,
`createTodo`, `updateTodo`, `deleteTodo`) as pure functions
`Env → request → Collection → Response × Collection`.

What the handlers call but the repository does not contain is modelled as follows.

* The MongoDB collection is a list of documents in natural order. `InsertOne`
  appends and enforces the unique index on `_id`; `UpdateOne` and `DeleteOne` with
  the filter `_id = x` act on the first matching document and report
  `MatchedCount` / `DeletedCount`. An operation that returns an error leaves the
  collection as it was.
* Whatever the environment supplies during one request is a field of `Env`: the
  identifier returned by `primitive.NewObjectID()`, the reading of `time.Now()`,
  and for each driver call the error it returns, if any (time-out, network, ...).
* A request body is given by the outcome of `json.NewDecoder(r.Body).Decode(&todo)`:
  an error, or the `Todo` value the decoder filled in (absent keys keep Go's zero
  values).
* Time is counted in nanoseconds since the epoch, the resolution of `time.Now()`.
  A stored date has millisecond resolution: on `InsertOne` the driver writes
  `created_at` as a BSON date, the clock reading cut down to whole milliseconds
  (`truncMs`), and that is the value a later read returns.
* A sequence of requests is served one after the other (`serve`); interleaving of
  concurrent requests is not modelled.
-/

namespace TodoList

/-! ## Object identifiers (`primitive.ObjectID`, `encoding/hex`) -/

/-- A `primitive.ObjectID` is an array of twelve bytes. -/
def ObjectID : Type := { bs : List (Fin 256) // bs.length = 12 }

instance : DecidableEq ObjectID := fun a b =>
  decidable_of_iff (a.val = b.val) Subtype.ext_iff.symm

/-- The digits used by `hex.EncodeToString`. -/
def hextable : List Char := "0123456789abcdef".data

/-- The hexadecimal digit of a value below sixteen. -/
def hexDigit (n : Nat) : Char := hextable.getD n '0'

/-- The value of one hexadecimal digit, in either case (`hex.fromHexChar`). -/
def fromHexChar (c : Char) : Option (Fin 16) :=
  let n := c.toNat
  if 48 ≤ n ∧ n ≤ 57 then some (Fin.ofNat (n - 48))
  else if 97 ≤ n ∧ n ≤ 102 then some (Fin.ofNat (n - 97 + 10))
  else if 65 ≤ n ∧ n ≤ 70 then some (Fin.ofNat (n - 65 + 10))
  else none

/-- The byte with high nibble `hi` and low nibble `lo`. -/
def mkByte (hi lo : Fin 16) : Fin 256 := ⟨hi.val * 16 + lo.val, by omega⟩

/-- Two digits per byte, high nibble first (`hex.Encode`). -/
def hexEncode : List (Fin 256) → List Char
  | [] => []
  | b :: bs => hexDigit (b.val / 16) :: hexDigit (b.val % 16) :: hexEncode bs

/-- Decoding of a digit string (`hex.Decode`): fails on a character that is not a
hexadecimal digit and on an odd number of characters. -/
def hexDecode : List Char → Option (List (Fin 256))
  | [] => some []
  | [_] => none
  | a :: b :: rest =>
    match fromHexChar a, fromHexChar b, hexDecode rest with
    | some hi, some lo, some tl => some (mkByte hi lo :: tl)
    | _, _, _ => none

/-- The 24-digit lower-case form of an identifier (`ObjectID.Hex`). -/
def ObjectID.Hex (id : ObjectID) : String := String.mk (hexEncode id.val)

/-- Parsing of an identifier (`primitive.ObjectIDFromHex`): the text must be
exactly 24 hexadecimal digits. `none` stands for the error return. (Go compares
the byte length with 24; a string that passes the digit check is ASCII, so its
byte length and its character count agree.) -/
def ObjectIDFromHex (s : String) : Option ObjectID :=
  if s.length ≠ 24 then none
  else
    match hexDecode s.data with
    | some bs => if h : bs.length = 12 then some ⟨bs, h⟩ else none
    | none => none

/-! ## `strings.TrimSpace` -/

/-- White space as defined by Go's `unicode.IsSpace`. -/
def isSpace (c : Char) : Bool :=
  let n := c.toNat
  n = 9 || n = 10 || n = 11 || n = 12 || n = 13 || n = 32 || n = 0x85 || n = 0xA0 ||
  n = 0x1680 || (0x2000 ≤ n && n ≤ 0x200A) || n = 0x2028 || n = 0x2029 ||
  n = 0x202F || n = 0x205F || n = 0x3000

/-- Removal of trailing white space from a list of characters. -/
def trimRight (l : List Char) : List Char := (l.reverse.dropWhile isSpace).reverse

/-- The string without its leading and trailing white space (`strings.TrimSpace`). -/
def TrimSpace (s : String) : String := String.mk (trimRight (s.data.dropWhile isSpace))

/-! ## Data model -/

/-- Nanoseconds since the epoch (negative before 1970). -/
abbrev Time : Type := Int

/-- The zero value of `time.Time`: 1 January of year 1, 00:00 UTC. -/
def zeroTime : Time := -62135596800000000000

/-- The number of nanoseconds in a millisecond. -/
def nsPerMs : Int := 1000000

/-- The instant cut down to whole milliseconds (rounded towards minus infinity), as
`primitive.NewDateTimeFromTime` does when a `time.Time` is written as a BSON date. -/
def truncMs (t : Time) : Time := t / nsPerMs * nsPerMs

/-- The `Todo` struct of `main.go`. -/
structure Todo where
  ID : ObjectID
  Title : String
  Completed : Bool
  CreatedAt : Time
deriving DecidableEq

/-- The collection `todo`: its documents in natural order. -/
abbrev Collection : Type := List Todo

/-- Outcome of `json.NewDecoder(r.Body).Decode(&todo)`. -/
inductive Body where
  | malformed (err : String)
  | decoded (todo : Todo)
deriving DecidableEq

/-- What a handler hands to `rnd.JSON` as the value to render. -/
inductive Payload where
  | M (fields : List (String × String))
  | data (todos : List Todo)
  | err (e : String)
deriving DecidableEq

/-- A response: the status code and the rendered value. -/
structure Response where
  status : Nat
  body : Payload
deriving DecidableEq

def StatusOK : Nat := 200
def StatusCreated : Nat := 201
def StatusBadRequest : Nat := 400
def StatusNotFound : Nat := 404
def StatusInternalServerError : Nat := 500

/-- What the environment supplies while one request is handled. -/
structure Env where
  /-- Value returned by `primitive.NewObjectID()`. -/
  newObjectID : ObjectID
  /-- Value returned by `time.Now()`. -/
  now : Time
  /-- Error returned by `collection.Find`, if any. -/
  findErr : Option String
  /-- Error returned by `cursor.All`, if any. -/
  allErr : Option String
  /-- Error with which the server or the connection fails `collection.InsertOne`. -/
  insertErr : Option String
  /-- Error returned by `collection.UpdateOne`, if any. -/
  updateErr : Option String
  /-- Error returned by `collection.DeleteOne`, if any. -/
  deleteErr : Option String

/-! ## The collection's operations -/

/-- The identifiers held by the collection, in order. -/
def ids (c : Collection) : List ObjectID := c.map (fun t => t.ID)

/-- The call `collection.Find(ctx, bson.M{})`: a cursor over every document. -/
def Find (c : Collection) (fault : Option String) : Except String (List Todo) :=
  match fault with
  | some e => .error e
  | none => .ok c

/-- The call `cursor.All(ctx, &todos)`: the documents of the cursor decoded into a slice. -/
def cursorAll (cursor : List Todo) (fault : Option String) : Except String (List Todo) :=
  match fault with
  | some e => .error e
  | none => .ok cursor

/-- The write error of the unique index on `_id`. -/
def duplicateKeyError : String := "E11000 duplicate key error"

/-- The document as the driver writes it and as a later read returns it: the fields
of the struct, with `created_at` a BSON date of millisecond resolution. -/
def storedForm (doc : Todo) : Todo := { doc with CreatedAt := truncMs doc.CreatedAt }

/-- The call `collection.InsertOne(ctx, todo)`: the stored form of the document is
appended unless the operation fails or another document already has its `_id`. -/
def InsertOne (c : Collection) (fault : Option String) (doc : Todo) :
    Except String Collection :=
  match fault with
  | some e => .error e
  | none =>
    if doc.ID ∈ ids c then .error duplicateKeyError else .ok (c ++ [storedForm doc])

/-- The `$set` of `updateTodo`: only `title` and `completed` are assigned. -/
def setFields (title : String) (completed : Bool) (t : Todo) : Todo :=
  { t with Title := title, Completed := completed }

/-- Application of `f` to the first document whose `_id` is `id`. -/
def updateFirst (id : ObjectID) (f : Todo → Todo) : List Todo → List Todo
  | [] => []
  | t :: ts => if t.ID = id then f t :: ts else t :: updateFirst id f ts

/-- Removal of the first document whose `_id` is `id`. -/
def deleteFirst (id : ObjectID) : List Todo → List Todo
  | [] => []
  | t :: ts => if t.ID = id then ts else t :: deleteFirst id ts

/-- The call `collection.UpdateOne(ctx, bson.M{"_id": objID}, update)`: the new collection
and `result.MatchedCount`. -/
def UpdateOne (c : Collection) (fault : Option String) (id : ObjectID)
    (title : String) (completed : Bool) : Except String (Nat × Collection) :=
  match fault with
  | some e => .error e
  | none =>
    if id ∈ ids c then .ok (1, updateFirst id (setFields title completed) c)
    else .ok (0, c)

/-- The call `collection.DeleteOne(ctx, bson.M{"_id": objID})`: the new collection and
`result.DeletedCount`. -/
def DeleteOne (c : Collection) (fault : Option String) (id : ObjectID) :
    Except String (Nat × Collection) :=
  match fault with
  | some e => .error e
  | none => if id ∈ ids c then .ok (1, deleteFirst id c) else .ok (0, c)

/-! ## The handlers -/

/-- The handler `fetchTodos`. -/
def fetchTodos (env : Env) (c : Collection) : Response × Collection :=
  match Find c env.findErr with
  | .error e =>
    (⟨StatusInternalServerError,
      .M [("message", "Failed to fetch todo"), ("error", e)]⟩, c)
  | .ok cursor =>
    match cursorAll cursor env.allErr with
    | .error e =>
      (⟨StatusInternalServerError,
        .M [("message", "Failed to decode todos"), ("error", e)]⟩, c)
    | .ok todos => (⟨StatusOK, .data todos⟩, c)

/-- The handler `createTodo`. -/
def createTodo (env : Env) (body : Body) (c : Collection) : Response × Collection :=
  match body with
  | .malformed err => (⟨StatusBadRequest, .err err⟩, c)
  | .decoded todo =>
    if todo.Title = "" then
      (⟨StatusBadRequest, .M [("message", "The title is required")]⟩, c)
    else
      let todo := { todo with ID := env.newObjectID }
      let todo := { todo with CreatedAt := env.now }
      let todo := { todo with Completed := false }
      match InsertOne c env.insertErr todo with
      | .error e =>
        (⟨StatusInternalServerError,
          .M [("message", "Failed to save todo"), ("error", e)]⟩, c)
      | .ok c1 =>
        (⟨StatusCreated,
          .M [("message", "Todo created successfully"), ("todo_id", todo.ID.Hex)]⟩, c1)

/-- The handler `updateTodo`; `idParam` is `chi.URLParam(r, "id")`. -/
def updateTodo (env : Env) (idParam : String) (body : Body) (c : Collection) :
    Response × Collection :=
  let id := TrimSpace idParam
  match ObjectIDFromHex id with
  | none => (⟨StatusBadRequest, .M [("message", "Invalid ID")]⟩, c)
  | some objID =>
    match body with
    | .malformed err => (⟨StatusBadRequest, .err err⟩, c)
    | .decoded todo =>
      match UpdateOne c env.updateErr objID todo.Title todo.Completed with
      | .error e =>
        (⟨StatusInternalServerError,
          .M [("message", "Failed to update todo"), ("error", e)]⟩, c)
      | .ok (matchedCount, c1) =>
        if matchedCount = 0 then
          (⟨StatusNotFound, .M [("message", "Todo not found")]⟩, c1)
        else
          (⟨StatusOK, .M [("message", "Todo updated successfully")]⟩, c1)

/-- The handler `deleteTodo`; `idParam` is `chi.URLParam(r, "id")`. -/
def deleteTodo (env : Env) (idParam : String) (c : Collection) : Response × Collection :=
  let id := TrimSpace idParam
  match ObjectIDFromHex id with
  | none => (⟨StatusBadRequest, .M [("message", "Invalid ID")]⟩, c)
  | some objID =>
    match DeleteOne c env.deleteErr objID with
    | .error e =>
      (⟨StatusInternalServerError,
        .M [("message", "Failed to delete todo"), ("error", e)]⟩, c)
    | .ok (deletedCount, c1) =>
      if deletedCount = 0 then
        (⟨StatusNotFound, .M [("message", "Todo not found")]⟩, c1)
      else
        (⟨StatusOK, .M [("message", "Todo deleted successfully")]⟩, c1)

/-! ## The router and sequences of requests -/

/-- A request to one of the four routes mounted by `todoHandlers`. -/
inductive Request where
  | fetch
  | create (body : Body)
  | update (idParam : String) (body : Body)
  | delete (idParam : String)
deriving DecidableEq

/-- The routing of `todoHandlers`: `GET /`, `POST /`, `PUT /{id}`, `DELETE /{id}`. -/
def todoHandlers (env : Env) (req : Request) (c : Collection) : Response × Collection :=
  match req with
  | .fetch => fetchTodos env c
  | .create body => createTodo env body c
  | .update idParam body => updateTodo env idParam body c
  | .delete idParam => deleteTodo env idParam c

/-- The requests of a trace served in order, each in its own environment: the
responses and the final collection. -/
def serve : List (Env × Request) → Collection → List Response × Collection
  | [], c => ([], c)
  | x :: rest, c =>
    let r := todoHandlers x.1 x.2 c
    let rs := serve rest r.2
    (r.1 :: rs.1, rs.2)

/-! ## Predicates used by the statements -/

/-- A success status of the todo routes. -/
def isSuccess (status : Nat) : Prop := status = StatusOK ∨ status = StatusCreated

instance (status : Nat) : Decidable (isSuccess status) := by
  unfold isSuccess; infer_instance

/-- Every request of the trace, served from `c`, is answered with a success status. -/
def allSucceed (tr : List (Env × Request)) (c : Collection) : Prop :=
  ∀ r ∈ (serve tr c).1, isSuccess r.status

instance (tr : List (Env × Request)) (c : Collection) : Decidable (allSucceed tr c) := by
  unfold allSucceed; infer_instance

/-- No request of the trace is a delete of the identifier `id`. -/
def notDeletedIn (id : ObjectID) (tr : List (Env × Request)) : Prop :=
  ∀ x ∈ tr, ∀ p, x.2 = Request.delete p → ObjectIDFromHex (TrimSpace p) ≠ some id

/-- The trace holds a create that was assigned the identifier `id` and whose clock
reading, cut down to milliseconds as it is stored, is `ts`; and no later request
of the trace deletes `id`. -/
def createdAndLive (id : ObjectID) (ts : Time) (tr : List (Env × Request)) : Prop :=
  ∃ pre e b post, tr = pre ++ (e, Request.create b) :: post ∧
    e.newObjectID = id ∧ truncMs e.now = ts ∧ notDeletedIn id post

/-- The identifier and creation time of every stored record, in order. -/
def keys (c : Collection) : List (ObjectID × Time) := c.map (fun t => (t.ID, t.CreatedAt))

/-- The invariant of the data model: every stored record has a non-empty title and
no two stored records share an identifier. -/
def StoreInvariant (c : Collection) : Prop :=
  (∀ t ∈ c, t.Title ≠ "") ∧ (ids c).Nodup

instance (c : Collection) : Decidable (StoreInvariant c) := by
  unfold StoreInvariant; infer_instance

/-- The condition of the specification on a title: nothing is left of it after
trimming. -/
def blankTitle (s : String) : Prop := TrimSpace s = ""

instance (s : String) : Decidable (blankTitle s) := by
  unfold blankTitle; infer_instance

/-- No store operation fails in this environment for a reason of its own. -/
def NoFault (env : Env) : Prop :=
  env.findErr = none ∧ env.allErr = none ∧ env.insertErr = none ∧
    env.updateErr = none ∧ env.deleteErr = none

instance (env : Env) : Decidable (NoFault env) := by
  unfold NoFault; infer_instance

/-! ## Sample values -/

/-- The identifier of twelve zero bytes (`primitive.NilObjectID`). -/
def NilObjectID : ObjectID := ⟨[0, 0, 0, 0, 0, 0, 0, 0, 0, 0, 0, 0], rfl⟩

/-- A sample identifier. -/
def oidA : ObjectID := ⟨[0x65, 0x4f, 0x1a, 0x2b, 0, 0, 0, 0, 0, 0, 0, 1], rfl⟩

/-- A second sample identifier. -/
def oidB : ObjectID := ⟨[0x65, 0x4f, 0x1a, 0x2b, 0, 0, 0, 0, 0, 0, 0, 2], rfl⟩

/-- An environment without store errors that generates `oidA`; the clock reads
456789 ns past a whole millisecond. -/
def envA : Env := ⟨oidA, 1700000000123456789, none, none, none, none, none⟩

/-- An environment without store errors that generates `oidB`, five seconds later. -/
def envB : Env := ⟨oidB, 1700000005000999999, none, none, none, none, none⟩

/-- An environment in which every store operation fails. -/
def envFail : Env :=
  ⟨oidB, 1700000005000999999, some "find: timeout", some "decode: timeout", some "insert: timeout",
    some "update: timeout", some "delete: timeout"⟩

/-- A stored record with identifier `oidA`. -/
def todoA : Todo := ⟨oidA, "buy milk", false, 1700000000123000000⟩

/-- A stored record with identifier `oidB`. -/
def todoB : Todo := ⟨oidB, "walk the dog", true, 1700000005000000000⟩

/-- The value decoded from a body that carries only `title` and `completed`. -/
def bodyOf (title : String) (completed : Bool) : Body :=
  .decoded ⟨NilObjectID, title, completed, zeroTime⟩

/-- The text of `oidA` as it appears in a path. -/
def hexA : String := "654f1a2b0000000000000001"

/-- A sample sequence of requests: two creates, an update and a delete of the
first record, and a list. -/
def traceA : List (Env × Request) :=
  [(envA, .create (bodyOf "buy milk" false)),
   (envB, .create (bodyOf "walk the dog" false)),
   (envA, .update hexA (bodyOf "buy milk" true)),
   (envA, .fetch),
   (envB, .delete hexA)]

/-! # Theorems -/

/-! ## Hexadecimal forms -/

theorem fromHexChar_hexDigit : ∀ n : Fin 16, fromHexChar (hexDigit n.val) = some n := by
  decide

theorem isSpace_hexDigit : ∀ n : Fin 16, isSpace (hexDigit n.val) = false := by
  decide

theorem hexDecode_hexEncode (bs : List (Fin 256)) : hexDecode (hexEncode bs) = some bs := by
  induction bs with
  | nil => rfl
  | cons b bs ih =>
    have hhi := fromHexChar_hexDigit ⟨b.val / 16, by omega⟩
    have hlo := fromHexChar_hexDigit ⟨b.val % 16, by omega⟩
    simp only at hhi hlo
    simp only [hexEncode, hexDecode, hhi, hlo, ih]
    congr 2
    apply Fin.ext
    simp only [mkByte]
    omega

theorem hexEncode_length (bs : List (Fin 256)) : (hexEncode bs).length = 2 * bs.length := by
  induction bs with
  | nil => rfl
  | cons b bs ih => simp only [hexEncode, List.length_cons, ih]; omega

theorem hexEncode_noSpace (bs : List (Fin 256)) :
    ∀ ch ∈ hexEncode bs, isSpace ch = false := by
  induction bs with
  | nil => intro ch h; simp [hexEncode] at h
  | cons b bs ih =>
    intro ch h
    simp only [hexEncode, List.mem_cons] at h
    rcases h with h | h | h
    · rw [h]; exact isSpace_hexDigit ⟨b.val / 16, by omega⟩
    · rw [h]; exact isSpace_hexDigit ⟨b.val % 16, by omega⟩
    · exact ih ch h

theorem dropWhile_eq_self {p : Char → Bool} (l : List Char) (h : ∀ ch ∈ l, p ch = false) :
    l.dropWhile p = l := by
  cases l with
  | nil => rfl
  | cons a l => simp [List.dropWhile, h a (List.mem_cons_self a l)]

theorem TrimSpace_Hex (id : ObjectID) : TrimSpace id.Hex = id.Hex := by
  have h := hexEncode_noSpace id.val
  unfold TrimSpace trimRight ObjectID.Hex
  simp only
  rw [dropWhile_eq_self _ h, dropWhile_eq_self _ (by simpa using h), List.reverse_reverse]

theorem ObjectIDFromHex_Hex (id : ObjectID) : ObjectIDFromHex id.Hex = some id := by
  unfold ObjectIDFromHex ObjectID.Hex
  have hl : (String.mk (hexEncode id.val)).length = 24 := by
    simp [String.length, hexEncode_length, id.property]
  simp only [hl, ne_eq, not_true_eq_false, if_false, hexDecode_hexEncode, id.property,
    dite_true]
  rfl

/-- A path parameter that is the hexadecimal form of `id` is parsed back to `id`. -/
theorem parse_Hex (id : ObjectID) : ObjectIDFromHex (TrimSpace id.Hex) = some id := by
  rw [TrimSpace_Hex, ObjectIDFromHex_Hex]

/-! ## Create: validation of the title (C1) -/

/-- C1, as stated, fails: the title of one space is blank after trimming, yet the
create request that carries it is answered with 201 and the record is inserted
with that title; hence the claim does not hold for every request with a blank
title. -/
theorem createTodo_blank_title_counterexample :
    blankTitle " " ∧
    createTodo envA (bodyOf " " false) [] =
      (⟨StatusCreated, .M [("message", "Todo created successfully"),
          ("todo_id", "654f1a2b0000000000000001")]⟩,
        [⟨oidA, " ", false, 1700000000123000000⟩]) ∧
    ¬ (∀ (env : Env) (todo : Todo) (c : Collection), blankTitle todo.Title →
        (createTodo env (.decoded todo) c).1.status = StatusBadRequest ∧
        (createTodo env (.decoded todo) c).2 = c) := by
  refine ⟨by decide, by decide, ?_⟩
  intro h
  have h1 := (h envA ⟨NilObjectID, " ", false, zeroTime⟩ [] (by decide)).1
  revert h1
  decide

/-- C1, amended: a create request whose decoded title is the empty string is
answered with status 400 and the collection is left as it was. -/
theorem createTodo_empty_title (env : Env) (todo : Todo) (c : Collection)
    (h : todo.Title = "") :
    createTodo env (.decoded todo) c =
      (⟨StatusBadRequest, .M [("message", "The title is required")]⟩, c) := by
  simp [createTodo, h]

theorem createTodo_empty_title_witness :
    createTodo envA (bodyOf "" true) [todoB] =
      (⟨StatusBadRequest, .M [("message", "The title is required")]⟩, [todoB]) :=
  createTodo_empty_title envA ⟨NilObjectID, "", true, zeroTime⟩ [todoB] rfl

/-! ## Invalid identifiers (C7) -/

/-- C7: when the trimmed `id` path parameter does not parse as an object
identifier, `updateTodo` (whatever the body) and `deleteTodo` answer 400 with the
message "Invalid ID" and return the collection as it was, in every environment,
so independently of what any store operation would have done. -/
theorem invalid_id_rejected (env : Env) (idParam : String) (body : Body) (c : Collection)
    (h : ObjectIDFromHex (TrimSpace idParam) = none) :
    updateTodo env idParam body c =
        (⟨StatusBadRequest, .M [("message", "Invalid ID")]⟩, c) ∧
    deleteTodo env idParam c =
        (⟨StatusBadRequest, .M [("message", "Invalid ID")]⟩, c) := by
  simp [updateTodo, deleteTodo, h]

theorem invalid_id_rejected_witness :
    ObjectIDFromHex (TrimSpace " 654f1a2b000000000000000g ") = none ∧
    (updateTodo envFail " 654f1a2b000000000000000g " (bodyOf "x" true) [todoA] =
        (⟨StatusBadRequest, .M [("message", "Invalid ID")]⟩, [todoA]) ∧
     deleteTodo envFail " 654f1a2b000000000000000g " [todoA] =
        (⟨StatusBadRequest, .M [("message", "Invalid ID")]⟩, [todoA])) :=
  ⟨by decide, invalid_id_rejected envFail " 654f1a2b000000000000000g " (bodyOf "x" true)
    [todoA] (by decide)⟩

/-! ## Store errors (C8) -/

/-- C8: in each of the four handlers, when the store operation it issues returns
an error `e` (`Find` or `cursor.All` in `fetchTodos`, `InsertOne` in `createTodo`,
`UpdateOne` in `updateTodo`, `DeleteOne` in `deleteTodo`), the response has status
500 and its body carries a message and, under `error`, the text `e`; the status is
therefore not a success status. -/
theorem store_error_gives_500 (env : Env) (c : Collection) (e : String) :
    (Find c env.findErr = .error e →
      fetchTodos env c = (⟨StatusInternalServerError,
        .M [("message", "Failed to fetch todo"), ("error", e)]⟩, c)) ∧
    (∀ cursor, Find c env.findErr = .ok cursor → cursorAll cursor env.allErr = .error e →
      fetchTodos env c = (⟨StatusInternalServerError,
        .M [("message", "Failed to decode todos"), ("error", e)]⟩, c)) ∧
    (∀ todo : Todo, todo.Title ≠ "" →
      InsertOne c env.insertErr
        ⟨env.newObjectID, todo.Title, false, env.now⟩ = .error e →
      createTodo env (.decoded todo) c = (⟨StatusInternalServerError,
        .M [("message", "Failed to save todo"), ("error", e)]⟩, c)) ∧
    (∀ (idParam : String) (objID : ObjectID) (todo : Todo),
      ObjectIDFromHex (TrimSpace idParam) = some objID →
      UpdateOne c env.updateErr objID todo.Title todo.Completed = .error e →
      updateTodo env idParam (.decoded todo) c = (⟨StatusInternalServerError,
        .M [("message", "Failed to update todo"), ("error", e)]⟩, c)) ∧
    (∀ (idParam : String) (objID : ObjectID),
      ObjectIDFromHex (TrimSpace idParam) = some objID →
      DeleteOne c env.deleteErr objID = .error e →
      deleteTodo env idParam c = (⟨StatusInternalServerError,
        .M [("message", "Failed to delete todo"), ("error", e)]⟩, c)) ∧
    ¬ isSuccess StatusInternalServerError := by
  refine ⟨?_, ?_, ?_, ?_, ?_, by decide⟩
  · intro h
    simp [fetchTodos, h]
  · intro cursor h1 h2
    simp [fetchTodos, h1, h2]
  · intro todo ht h
    simp [createTodo, ht, h]
  · intro idParam objID todo hp h
    simp [updateTodo, hp, h]
  · intro idParam objID hp h
    simp [deleteTodo, hp, h]

theorem store_error_gives_500_witness :
    fetchTodos envFail [todoA] = (⟨StatusInternalServerError,
        .M [("message", "Failed to fetch todo"), ("error", "find: timeout")]⟩, [todoA]) ∧
    createTodo envA (bodyOf "again" false) [todoA] = (⟨StatusInternalServerError,
        .M [("message", "Failed to save todo"), ("error", duplicateKeyError)]⟩, [todoA]) ∧
    updateTodo envFail hexA (bodyOf "x" true) [todoA] = (⟨StatusInternalServerError,
        .M [("message", "Failed to update todo"), ("error", "update: timeout")]⟩, [todoA]) ∧
    deleteTodo envFail hexA [todoA] = (⟨StatusInternalServerError,
        .M [("message", "Failed to delete todo"), ("error", "delete: timeout")]⟩, [todoA]) :=
  ⟨(store_error_gives_500 envFail [todoA] "find: timeout").1 rfl,
   (store_error_gives_500 envA [todoA] duplicateKeyError).2.2.1
      ⟨NilObjectID, "again", false, zeroTime⟩ (by decide) rfl,
   (store_error_gives_500 envFail [todoA] "update: timeout").2.2.2.1 hexA oidA
      ⟨NilObjectID, "x", true, zeroTime⟩ (by decide) rfl,
   (store_error_gives_500 envFail [todoA] "delete: timeout").2.2.2.2.1 hexA oidA
      (by decide) rfl⟩

/-! ## Lists of documents -/

theorem ids_append (c d : Collection) : ids (c ++ d) = ids c ++ ids d := by
  simp [ids]

theorem mem_ids {id : ObjectID} {c : Collection} : id ∈ ids c ↔ ∃ t ∈ c, t.ID = id := by
  simp [ids]

theorem updateFirst_split (id : ObjectID) (f : Todo → Todo) (c : Collection)
    (h : id ∈ ids c) :
    ∃ l1 t l2, c = l1 ++ t :: l2 ∧ t.ID = id ∧ id ∉ ids l1 ∧
      updateFirst id f c = l1 ++ f t :: l2 := by
  induction c with
  | nil => simp [ids] at h
  | cons a c ih =>
    by_cases ha : a.ID = id
    · exact ⟨[], a, c, rfl, ha, by simp [ids], by simp [updateFirst, ha]⟩
    · have h2 : id ∈ ids c := by
        simp only [ids, List.map_cons, List.mem_cons] at h
        rcases h with h | h
        · exact absurd h.symm ha
        · exact h
      obtain ⟨l1, t, l2, hc, ht, hn, hu⟩ := ih h2
      refine ⟨a :: l1, t, l2, by simp [hc], ht, ?_, by simp [updateFirst, ha, hu]⟩
      simp only [ids, List.map_cons, List.mem_cons, not_or]
      exact ⟨fun h3 => ha h3.symm, hn⟩

theorem deleteFirst_split (id : ObjectID) (c : Collection) (h : id ∈ ids c) :
    ∃ l1 t l2, c = l1 ++ t :: l2 ∧ t.ID = id ∧ id ∉ ids l1 ∧
      deleteFirst id c = l1 ++ l2 := by
  induction c with
  | nil => simp [ids] at h
  | cons a c ih =>
    by_cases ha : a.ID = id
    · exact ⟨[], a, c, rfl, ha, by simp [ids], by simp [deleteFirst, ha]⟩
    · have h2 : id ∈ ids c := by
        simp only [ids, List.map_cons, List.mem_cons] at h
        rcases h with h | h
        · exact absurd h.symm ha
        · exact h
      obtain ⟨l1, t, l2, hc, ht, hn, hu⟩ := ih h2
      refine ⟨a :: l1, t, l2, by simp [hc], ht, ?_, by simp [deleteFirst, ha, hu]⟩
      simp only [ids, List.map_cons, List.mem_cons, not_or]
      exact ⟨fun h3 => ha h3.symm, hn⟩

theorem updateFirst_append (id : ObjectID) (f : Todo → Todo) (l1 l2 : List Todo) (t : Todo)
    (ht : t.ID = id) (hn : id ∉ ids l1) :
    updateFirst id f (l1 ++ t :: l2) = l1 ++ f t :: l2 := by
  induction l1 with
  | nil => simp [updateFirst, ht]
  | cons a l1 ih =>
    simp only [ids, List.map_cons, List.mem_cons, not_or] at hn
    have ha : ¬ a.ID = id := fun h3 => hn.1 h3.symm
    have h2 := ih hn.2
    simp [updateFirst, ha, h2]

theorem keys_updateFirst (id : ObjectID) (title : String) (completed : Bool)
    (c : Collection) : keys (updateFirst id (setFields title completed) c) = keys c := by
  induction c with
  | nil => rfl
  | cons a c ih =>
    by_cases ha : a.ID = id
    · simp [updateFirst, ha, keys, setFields]
    · simp only [updateFirst, ha, if_false, keys, List.map_cons]
      rw [show List.map (fun t : Todo => (t.ID, t.CreatedAt)) _ = keys _ from rfl, ih]
      rfl

theorem ids_eq_keys (c : Collection) : ids c = (keys c).map Prod.fst := by
  simp [ids, keys]

theorem ids_updateFirst (id : ObjectID) (title : String) (completed : Bool)
    (c : Collection) : ids (updateFirst id (setFields title completed) c) = ids c := by
  rw [ids_eq_keys, keys_updateFirst, ← ids_eq_keys]

/-! ## Create (C4) -/

/-- C2: for every collection, every path parameter that parses to an identifier
`objID` and every decoded body, when `UpdateOne` is not failed: if a record with
that identifier exists, `updateTodo` answers 200 and the new collection is the old
one with the first such record `t` replaced by a record of the same `id` and
`created_at` whose title and `completed` are the ones of the body, every other
record being unchanged; if no record has that identifier, it answers 404 and the
collection is unchanged. -/
theorem updateTodo_frame (env : Env) (idParam : String) (objID : ObjectID) (todo : Todo)
    (c : Collection) (hp : ObjectIDFromHex (TrimSpace idParam) = some objID)
    (hok : env.updateErr = none) :
    (objID ∈ ids c → ∃ l1 t l2, c = l1 ++ t :: l2 ∧ t.ID = objID ∧ objID ∉ ids l1 ∧
      updateTodo env idParam (.decoded todo) c =
        (⟨StatusOK, .M [("message", "Todo updated successfully")]⟩,
         l1 ++ ⟨t.ID, todo.Title, todo.Completed, t.CreatedAt⟩ :: l2)) ∧
    (objID ∉ ids c →
      updateTodo env idParam (.decoded todo) c =
        (⟨StatusNotFound, .M [("message", "Todo not found")]⟩, c)) := by
  constructor
  · intro hm
    obtain ⟨l1, t, l2, hc, ht, hn, hu⟩ :=
      updateFirst_split objID (setFields todo.Title todo.Completed) c hm
    refine ⟨l1, t, l2, hc, ht, hn, ?_⟩
    simp [updateTodo, hp, UpdateOne, hok, hm, hu, setFields]
  · intro hm
    simp [updateTodo, hp, UpdateOne, hok, hm]

theorem updateTodo_frame_witness :
    (oidA ∈ ids [todoB, todoA] → ∃ l1 t l2, [todoB, todoA] = l1 ++ t :: l2 ∧ t.ID = oidA ∧
      oidA ∉ ids l1 ∧
      updateTodo envA hexA (.decoded ⟨oidB, "buy oat milk", true, 7⟩) [todoB, todoA] =
        (⟨StatusOK, .M [("message", "Todo updated successfully")]⟩,
         l1 ++ ⟨t.ID, "buy oat milk", true, t.CreatedAt⟩ :: l2)) ∧
    (oidA ∉ ids [todoB, todoA] →
      updateTodo envA hexA (.decoded ⟨oidB, "buy oat milk", true, 7⟩) [todoB, todoA] =
        (⟨StatusNotFound, .M [("message", "Todo not found")]⟩, [todoB, todoA])) :=
  updateTodo_frame envA hexA oidA ⟨oidB, "buy oat milk", true, 7⟩ [todoB, todoA]
    (by decide) rfl

/-- C10: on a record that exists, `updateTodo` is idempotent: for every collection,
every path parameter that parses to the identifier of a stored record and every
decoded body, with `UpdateOne` not failed, the first call and a second call with
the same parameter and body both answer 200, and the collection after the second
call is the collection after the first. -/
theorem updateTodo_idempotent (env1 env2 : Env) (idParam : String) (objID : ObjectID)
    (todo : Todo) (c : Collection)
    (hp : ObjectIDFromHex (TrimSpace idParam) = some objID)
    (h1 : env1.updateErr = none) (h2 : env2.updateErr = none) (hm : objID ∈ ids c) :
    (updateTodo env1 idParam (.decoded todo) c).1.status = StatusOK ∧
    (updateTodo env2 idParam (.decoded todo)
      (updateTodo env1 idParam (.decoded todo) c).2).1.status = StatusOK ∧
    (updateTodo env2 idParam (.decoded todo)
      (updateTodo env1 idParam (.decoded todo) c).2).2 =
      (updateTodo env1 idParam (.decoded todo) c).2 := by
  obtain ⟨l1, t, l2, hc, ht, hn, hu⟩ :=
    updateFirst_split objID (setFields todo.Title todo.Completed) c hm
  have e1 : updateTodo env1 idParam (.decoded todo) c =
      (⟨StatusOK, .M [("message", "Todo updated successfully")]⟩,
        l1 ++ setFields todo.Title todo.Completed t :: l2) := by
    simp [updateTodo, hp, UpdateOne, h1, hm, hu]
  have hm2 : objID ∈ ids (l1 ++ setFields todo.Title todo.Completed t :: l2) := by
    simp [ids, setFields, ht]
  have hu2 : updateFirst objID (setFields todo.Title todo.Completed)
      (l1 ++ setFields todo.Title todo.Completed t :: l2) =
      l1 ++ setFields todo.Title todo.Completed t :: l2 := by
    rw [updateFirst_append objID _ l1 l2 _ (by simpa [setFields] using ht) hn]
    rfl
  have e2 : updateTodo env2 idParam (.decoded todo)
      (l1 ++ setFields todo.Title todo.Completed t :: l2) =
      (⟨StatusOK, .M [("message", "Todo updated successfully")]⟩,
        l1 ++ setFields todo.Title todo.Completed t :: l2) := by
    simp only [updateTodo, hp, UpdateOne, h2, hm2, if_true, hu2]
    simp
  rw [e1]
  dsimp only
  rw [e2]
  exact ⟨rfl, rfl, rfl⟩

theorem updateTodo_idempotent_witness :
    (updateTodo envA hexA (bodyOf "buy milk" false) [todoB, todoA]).1.status = StatusOK ∧
    (updateTodo envB hexA (bodyOf "buy milk" false)
      (updateTodo envA hexA (bodyOf "buy milk" false) [todoB, todoA]).2).1.status
        = StatusOK ∧
    (updateTodo envB hexA (bodyOf "buy milk" false)
      (updateTodo envA hexA (bodyOf "buy milk" false) [todoB, todoA]).2).2 =
      (updateTodo envA hexA (bodyOf "buy milk" false) [todoB, todoA]).2 :=
  updateTodo_idempotent envA envB hexA oidA ⟨NilObjectID, "buy milk", false, zeroTime⟩
    [todoB, todoA] (by decide) rfl rfl (by decide)

/-! ## Delete (C5) -/

/-- C5: for every collection and every path parameter that parses to an identifier
`objID`, when `DeleteOne` is not failed: if a record with that identifier exists,
`deleteTodo` answers 200 and the new collection is the old one without the first
such record (one record fewer, all others kept in order); if no record has that
identifier, it answers 404 and the collection is unchanged. -/
theorem deleteTodo_removes_one (env : Env) (idParam : String) (objID : ObjectID)
    (c : Collection) (hp : ObjectIDFromHex (TrimSpace idParam) = some objID)
    (hok : env.deleteErr = none) :
    (objID ∈ ids c → ∃ l1 t l2, c = l1 ++ t :: l2 ∧ t.ID = objID ∧ objID ∉ ids l1 ∧
      deleteTodo env idParam c =
        (⟨StatusOK, .M [("message", "Todo deleted successfully")]⟩, l1 ++ l2)) ∧
    (objID ∉ ids c →
      deleteTodo env idParam c =
        (⟨StatusNotFound, .M [("message", "Todo not found")]⟩, c)) := by
  constructor
  · intro hm
    obtain ⟨l1, t, l2, hc, ht, hn, hu⟩ := deleteFirst_split objID c hm
    refine ⟨l1, t, l2, hc, ht, hn, ?_⟩
    simp [deleteTodo, hp, DeleteOne, hok, hm, hu]
  · intro hm
    simp [deleteTodo, hp, DeleteOne, hok, hm]

theorem deleteTodo_removes_one_witness :
    (oidA ∈ ids [todoB, todoA] → ∃ l1 t l2, [todoB, todoA] = l1 ++ t :: l2 ∧ t.ID = oidA ∧
      oidA ∉ ids l1 ∧
      deleteTodo envA hexA [todoB, todoA] =
        (⟨StatusOK, .M [("message", "Todo deleted successfully")]⟩, l1 ++ l2)) ∧
    (oidA ∉ ids [todoB, todoA] →
      deleteTodo envA hexA [todoB, todoA] =
        (⟨StatusNotFound, .M [("message", "Todo not found")]⟩, [todoB, todoA])) :=
  deleteTodo_removes_one envA hexA oidA [todoB, todoA] (by decide) rfl

/-! ## The invariant of the data model (C3) -/

/-- C3 fails on the code: the collection `[todoA]` satisfies the invariant, the
request `PUT /todo/654f1a2b0000000000000001` whose body carries no title (decoded
title empty) is answered 200, and the stored record then has an empty title, so the
invariant no longer holds. -/
theorem updateTodo_breaks_invariant :
    StoreInvariant [todoA] ∧
    updateTodo envA hexA (bodyOf "" true) [todoA] =
      (⟨StatusOK, .M [("message", "Todo updated successfully")]⟩,
       [⟨oidA, "", true, 1700000000123000000⟩]) ∧
    ¬ StoreInvariant (updateTodo envA hexA (bodyOf "" true) [todoA]).2 := by
  decide

/-! ## Listing after a sequence of requests (C6) -/

theorem keys_append (c d : Collection) : keys (c ++ d) = keys c ++ keys d := by
  simp [keys]

theorem mem_ids_of_mem_keys {id : ObjectID} {ts : Time} {c : Collection}
    (h : (id, ts) ∈ keys c) : id ∈ ids c := by
  rw [ids_eq_keys]
  exact List.mem_map.mpr ⟨(id, ts), h, rfl⟩

theorem notDeletedIn_nil (id : ObjectID) : notDeletedIn id [] := by
  intro x hx
  simp at hx

theorem notDeletedIn_cons (id : ObjectID) (x : Env × Request) (rest : List (Env × Request)) :
    notDeletedIn id (x :: rest) ↔
      (∀ p, x.2 = Request.delete p → ObjectIDFromHex (TrimSpace p) ≠ some id) ∧
        notDeletedIn id rest := by
  simp [notDeletedIn]

theorem createdAndLive_nil (id : ObjectID) (ts : Time) : ¬ createdAndLive id ts [] := by
  rintro ⟨pre, e, b, post, h, _⟩
  simp at h

theorem createdAndLive_cons (id : ObjectID) (ts : Time) (x : Env × Request)
    (rest : List (Env × Request)) :
    createdAndLive id ts (x :: rest) ↔
      ((∃ b, x.2 = Request.create b) ∧ x.1.newObjectID = id ∧ truncMs x.1.now = ts ∧
          notDeletedIn id rest) ∨
        createdAndLive id ts rest := by
  constructor
  · rintro ⟨pre, e, b, post, h, hid, hts, hnd⟩
    cases pre with
    | nil =>
      simp only [List.nil_append, List.cons.injEq] at h
      obtain ⟨hx, hr⟩ := h
      subst hx hr
      exact Or.inl ⟨⟨b, rfl⟩, hid, hts, hnd⟩
    | cons y pre =>
      simp only [List.cons_append, List.cons.injEq] at h
      obtain ⟨_, hr⟩ := h
      exact Or.inr ⟨pre, e, b, post, hr, hid, hts, hnd⟩
  · rintro (⟨⟨b, hb⟩, hid, hts, hnd⟩ | ⟨pre, e, b, post, h, hid, hts, hnd⟩)
    · refine ⟨[], x.1, b, rest, ?_, hid, hts, hnd⟩
      rw [← hb]
      rfl
    · exact ⟨x :: pre, e, b, post, by simp [h], hid, hts, hnd⟩

theorem fetchTodos_store (env : Env) (c : Collection) : (fetchTodos env c).2 = c := by
  unfold fetchTodos Find cursorAll
  cases env.findErr <;> cases env.allErr <;> rfl

theorem deleteFirst_keys (objID : ObjectID) (c : Collection) (hN : (ids c).Nodup)
    (hm : objID ∈ ids c) :
    (ids (deleteFirst objID c)).Nodup ∧
    ∀ id ts, (id, ts) ∈ keys (deleteFirst objID c) ↔ (id, ts) ∈ keys c ∧ id ≠ objID := by
  obtain ⟨l1, t, l2, hc, ht, hn, hu⟩ := deleteFirst_split objID c hm
  rw [hu]
  subst hc
  rw [ids_append] at hN
  have hN2 : (ids l1 ++ objID :: ids l2).Nodup := by
    simpa [ids, ht] using hN
  have hparts := List.nodup_append.mp hN2
  have hcons := List.nodup_cons.mp hparts.2.1
  constructor
  · rw [ids_append]
    exact List.nodup_append.mpr ⟨hparts.1, hcons.2, fun a h1 h2 =>
      hparts.2.2 h1 (List.mem_cons_of_mem _ h2)⟩
  · intro id ts
    simp only [keys_append, List.mem_append]
    have hk : keys (t :: l2) = (t.ID, t.CreatedAt) :: keys l2 := rfl
    rw [hk, List.mem_cons]
    constructor
    · rintro (h | h)
      · refine ⟨Or.inl h, ?_⟩
        intro he
        exact hn (he ▸ mem_ids_of_mem_keys h)
      · refine ⟨Or.inr (Or.inr h), ?_⟩
        intro he
        exact hcons.1 (he ▸ mem_ids_of_mem_keys h)
    · rintro ⟨h | h | h, hne⟩
      · exact Or.inl h
      · exact absurd ((Prod.mk.inj h).1.trans ht) hne
      · exact Or.inr h

/-- One successful request: identifiers stay pairwise distinct, and a record is in
the new collection exactly when it was there and the request did not delete it, or
the request created it. -/
theorem todoHandlers_keys (env : Env) (req : Request) (c : Collection) (hN : (ids c).Nodup)
    (hs : isSuccess (todoHandlers env req c).1.status) :
    (ids (todoHandlers env req c).2).Nodup ∧
    ∀ id ts, (id, ts) ∈ keys (todoHandlers env req c).2 ↔
      ((id, ts) ∈ keys c ∧
        ∀ p, req = Request.delete p → ObjectIDFromHex (TrimSpace p) ≠ some id) ∨
      ((∃ b, req = Request.create b) ∧ env.newObjectID = id ∧ truncMs env.now = ts) := by
  cases req with
  | fetch =>
    simp only [todoHandlers, fetchTodos_store]
    exact ⟨hN, by simp⟩
  | create body =>
    simp only [todoHandlers] at hs ⊢
    cases body with
    | malformed err => exact absurd hs (by simp [createTodo, isSuccess, StatusBadRequest,
        StatusOK, StatusCreated])
    | decoded todo =>
      by_cases ht : todo.Title = ""
      · exact absurd hs (by simp [createTodo, ht, isSuccess, StatusBadRequest,
          StatusOK, StatusCreated])
      · cases hf : env.insertErr with
        | some e => exact absurd hs (by simp [createTodo, ht, InsertOne, hf, isSuccess,
            StatusInternalServerError, StatusOK, StatusCreated])
        | none =>
          by_cases hm : env.newObjectID ∈ ids c
          · exact absurd hs (by simp [createTodo, ht, InsertOne, hf, hm, isSuccess,
              StatusInternalServerError, StatusOK, StatusCreated])
          · have e1 : (createTodo env (.decoded todo) c).2 =
                c ++ [⟨env.newObjectID, todo.Title, false, truncMs env.now⟩] := by
              simp [createTodo, ht, InsertOne, hf, hm, storedForm]
            rw [e1]
            constructor
            · rw [ids_append]
              exact List.nodup_append.mpr ⟨hN, by simp [ids], by
                intro a h1 h2
                simp only [ids, List.map_cons, List.map_nil, List.mem_singleton] at h2
                exact hm (h2 ▸ h1)⟩
            · intro id ts
              simp only [keys_append, List.mem_append]
              have hk : keys [(⟨env.newObjectID, todo.Title, false, truncMs env.now⟩ : Todo)] =
                  [(env.newObjectID, truncMs env.now)] := rfl
              rw [hk, List.mem_singleton]
              constructor
              · rintro (h | h)
                · exact Or.inl ⟨h, by simp⟩
                · exact Or.inr ⟨⟨_, rfl⟩, (Prod.mk.inj h).1.symm, (Prod.mk.inj h).2.symm⟩
              · rintro (⟨h, _⟩ | ⟨_, h1, h2⟩)
                · exact Or.inl h
                · exact Or.inr (by rw [h1, h2])
  | update idParam body =>
    simp only [todoHandlers] at hs ⊢
    cases hp : ObjectIDFromHex (TrimSpace idParam) with
    | none => exact absurd hs (by simp [updateTodo, hp, isSuccess, StatusBadRequest,
        StatusOK, StatusCreated])
    | some objID =>
      cases body with
      | malformed err => exact absurd hs (by simp [updateTodo, hp, isSuccess,
          StatusBadRequest, StatusOK, StatusCreated])
      | decoded todo =>
        cases hf : env.updateErr with
        | some e => exact absurd hs (by simp [updateTodo, hp, UpdateOne, hf, isSuccess,
            StatusInternalServerError, StatusOK, StatusCreated])
        | none =>
          by_cases hm : objID ∈ ids c
          · have e1 : (updateTodo env idParam (.decoded todo) c).2 =
                updateFirst objID (setFields todo.Title todo.Completed) c := by
              simp [updateTodo, hp, UpdateOne, hf, hm]
            rw [e1, ids_updateFirst, keys_updateFirst]
            exact ⟨hN, by simp⟩
          · exact absurd hs (by simp [updateTodo, hp, UpdateOne, hf, hm, isSuccess,
              StatusNotFound, StatusOK, StatusCreated])
  | delete idParam =>
    simp only [todoHandlers] at hs ⊢
    cases hp : ObjectIDFromHex (TrimSpace idParam) with
    | none => exact absurd hs (by simp [deleteTodo, hp, isSuccess, StatusBadRequest,
        StatusOK, StatusCreated])
    | some objID =>
      cases hf : env.deleteErr with
      | some e => exact absurd hs (by simp [deleteTodo, hp, DeleteOne, hf, isSuccess,
          StatusInternalServerError, StatusOK, StatusCreated])
      | none =>
        by_cases hm : objID ∈ ids c
        · have e1 : (deleteTodo env idParam c).2 = deleteFirst objID c := by
            simp [deleteTodo, hp, DeleteOne, hf, hm]
          rw [e1]
          obtain ⟨h1, h2⟩ := deleteFirst_keys objID c hN hm
          refine ⟨h1, ?_⟩
          intro id ts
          rw [h2]
          simp only [Request.delete.injEq, forall_eq', hp, ne_eq, Option.some.injEq,
            reduceCtorEq, false_and, exists_false, or_false]
          constructor
          · rintro ⟨h, hne⟩
            exact ⟨h, fun he => hne he.symm⟩
          · rintro ⟨h, hne⟩
            exact ⟨h, fun he => hne he.symm⟩
        · exact absurd hs (by simp [deleteTodo, hp, DeleteOne, hf, hm, isSuccess,
            StatusNotFound, StatusOK, StatusCreated])

theorem serve_cons (x : Env × Request) (rest : List (Env × Request)) (c : Collection) :
    serve (x :: rest) c =
      ((todoHandlers x.1 x.2 c).1 :: (serve rest (todoHandlers x.1 x.2 c).2).1,
        (serve rest (todoHandlers x.1 x.2 c).2).2) := rfl

theorem serve_keys (tr : List (Env × Request)) :
    ∀ c : Collection, (ids c).Nodup → allSucceed tr c →
      (ids (serve tr c).2).Nodup ∧
      ∀ id ts, (id, ts) ∈ keys (serve tr c).2 ↔
        ((id, ts) ∈ keys c ∧ notDeletedIn id tr) ∨ createdAndLive id ts tr := by
  induction tr with
  | nil =>
    intro c hN _
    refine ⟨hN, ?_⟩
    intro id ts
    simp [serve, notDeletedIn_nil, createdAndLive_nil]
  | cons x rest ih =>
    intro c hN hs
    have hs1 : isSuccess (todoHandlers x.1 x.2 c).1.status :=
      hs _ (by rw [serve_cons]; exact List.mem_cons_self _ _)
    have hs2 : allSucceed rest (todoHandlers x.1 x.2 c).2 := by
      intro r hr
      exact hs r (by rw [serve_cons]; exact List.mem_cons_of_mem _ hr)
    obtain ⟨hN1, hk1⟩ := todoHandlers_keys x.1 x.2 c hN hs1
    obtain ⟨hN2, hk2⟩ := ih _ hN1 hs2
    rw [serve_cons]
    refine ⟨hN2, ?_⟩
    intro id ts
    rw [hk2, hk1, notDeletedIn_cons, createdAndLive_cons]
    tauto

/-- C6: after any sequence of requests to the todo routes that were all answered
with a success status, served from the empty collection, `fetchTodos` (with `Find`
and `cursor.All` not failed) answers 200 with the stored records as `data` and
leaves the collection unchanged; no two listed records share an identifier; and a
record with identifier `id` and stored creation time `ts` is listed exactly when
some create of the sequence was assigned `id` with `ts` its clock reading cut down
to whole milliseconds, and no later request of the sequence deleted `id`. -/
theorem fetchTodos_lists_live (tr : List (Env × Request)) (env : Env)
    (hs : allSucceed tr []) (hf : env.findErr = none) (ha : env.allErr = none) :
    fetchTodos env (serve tr []).2 =
      (⟨StatusOK, .data (serve tr []).2⟩, (serve tr []).2) ∧
    (ids (serve tr []).2).Nodup ∧
    ∀ id ts, (id, ts) ∈ keys (serve tr []).2 ↔ createdAndLive id ts tr := by
  obtain ⟨hN, hk⟩ := serve_keys tr [] List.nodup_nil hs
  refine ⟨by simp [fetchTodos, Find, cursorAll, hf, ha], hN, ?_⟩
  intro id ts
  rw [hk]
  simp [keys]

theorem fetchTodos_lists_live_witness :
    allSucceed traceA [] ∧
    (fetchTodos envA (serve traceA []).2 =
      (⟨StatusOK, .data (serve traceA []).2⟩, (serve traceA []).2) ∧
    (ids (serve traceA []).2).Nodup ∧
    ∀ id ts, (id, ts) ∈ keys (serve traceA []).2 ↔ createdAndLive id ts traceA) :=
  ⟨by decide, fetchTodos_lists_live traceA envA (by decide) rfl rfl⟩

/-! ## The example trace (C9) -/

theorem deleteFirst_append (id : ObjectID) (l1 l2 : List Todo) (t : Todo)
    (ht : t.ID = id) (hn : id ∉ ids l1) :
    deleteFirst id (l1 ++ t :: l2) = l1 ++ l2 := by
  induction l1 with
  | nil => simp [deleteFirst, ht]
  | cons a l1 ih =>
    simp only [ids, List.map_cons, List.mem_cons, not_or] at hn
    have ha : ¬ a.ID = id := fun h3 => hn.1 h3.symm
    have h2 := ih hn.2
    simp [deleteFirst, ha, h2]

theorem fetchTodos_ok (env : Env) (c : Collection) (h : NoFault env) :
    fetchTodos env c = (⟨StatusOK, .data c⟩, c) := by
  simp [fetchTodos, Find, cursorAll, h.1, h.2.1]

/-- C9: the example trace, from any collection `c`, when no store operation is
failed and the identifier generated for the create is not yet in use. Creating
"buy milk" answers 201 with `todo_id` the hexadecimal form of the new identifier
and appends the record; the following list answers 200 and contains that record
with title "buy milk" and `completed` false. Updating that `todo_id` with title
"buy milk" and `completed` true answers 200; the following list contains the
record with `completed` true, and every listed record with that identifier has
`completed` true. Deleting that `todo_id` answers 200; the following list contains
no record with that identifier. Deleting it again answers 404. -/
theorem example_trace (c : Collection) (e1 e2 e3 e4 e5 e6 e7 : Env)
    (h1 : NoFault e1) (h2 : NoFault e2) (h3 : NoFault e3) (h4 : NoFault e4)
    (h5 : NoFault e5) (h6 : NoFault e6) (h7 : NoFault e7)
    (hfresh : e1.newObjectID ∉ ids c) :
    createTodo e1 (bodyOf "buy milk" false) c =
      (⟨StatusCreated, .M [("message", "Todo created successfully"),
          ("todo_id", e1.newObjectID.Hex)]⟩,
        c ++ [⟨e1.newObjectID, "buy milk", false, truncMs e1.now⟩]) ∧
    fetchTodos e2 (c ++ [⟨e1.newObjectID, "buy milk", false, truncMs e1.now⟩]) =
      (⟨StatusOK, .data (c ++ [⟨e1.newObjectID, "buy milk", false, truncMs e1.now⟩])⟩,
        c ++ [⟨e1.newObjectID, "buy milk", false, truncMs e1.now⟩]) ∧
    (⟨e1.newObjectID, "buy milk", false, truncMs e1.now⟩ : Todo) ∈
      c ++ [⟨e1.newObjectID, "buy milk", false, truncMs e1.now⟩] ∧
    updateTodo e3 e1.newObjectID.Hex (bodyOf "buy milk" true)
        (c ++ [⟨e1.newObjectID, "buy milk", false, truncMs e1.now⟩]) =
      (⟨StatusOK, .M [("message", "Todo updated successfully")]⟩,
        c ++ [⟨e1.newObjectID, "buy milk", true, truncMs e1.now⟩]) ∧
    fetchTodos e4 (c ++ [⟨e1.newObjectID, "buy milk", true, truncMs e1.now⟩]) =
      (⟨StatusOK, .data (c ++ [⟨e1.newObjectID, "buy milk", true, truncMs e1.now⟩])⟩,
        c ++ [⟨e1.newObjectID, "buy milk", true, truncMs e1.now⟩]) ∧
    (⟨e1.newObjectID, "buy milk", true, truncMs e1.now⟩ : Todo) ∈
      c ++ [⟨e1.newObjectID, "buy milk", true, truncMs e1.now⟩] ∧
    (∀ t ∈ c ++ [(⟨e1.newObjectID, "buy milk", true, truncMs e1.now⟩ : Todo)],
      t.ID = e1.newObjectID → t.Completed = true) ∧
    deleteTodo e5 e1.newObjectID.Hex (c ++ [⟨e1.newObjectID, "buy milk", true, truncMs e1.now⟩]) =
      (⟨StatusOK, .M [("message", "Todo deleted successfully")]⟩, c) ∧
    fetchTodos e6 c = (⟨StatusOK, .data c⟩, c) ∧
    (∀ t ∈ c, t.ID ≠ e1.newObjectID) ∧
    deleteTodo e7 e1.newObjectID.Hex c =
      (⟨StatusNotFound, .M [("message", "Todo not found")]⟩, c) := by
  have hp := parse_Hex e1.newObjectID
  have hnot : ∀ t ∈ c, t.ID ≠ e1.newObjectID := fun t ht he =>
    hfresh (mem_ids.mpr ⟨t, ht, he⟩)
  have hin : ∀ b : Bool, e1.newObjectID ∈
      ids (c ++ [(⟨e1.newObjectID, "buy milk", b, truncMs e1.now⟩ : Todo)]) := by
    intro b
    simp [ids]
  refine ⟨?_, fetchTodos_ok e2 _ h2, by simp, ?_, fetchTodos_ok e4 _ h4, by simp, ?_, ?_,
    fetchTodos_ok e6 _ h6, hnot, ?_⟩
  · simp [createTodo, bodyOf, InsertOne, h1.2.2.1, hfresh, storedForm]
  · have hu := updateFirst_append e1.newObjectID (setFields "buy milk" true) c []
      ⟨e1.newObjectID, "buy milk", false, truncMs e1.now⟩ rfl hfresh
    simp only [updateTodo, hp, bodyOf, UpdateOne, h3.2.2.2.1, hin false, if_true, hu]
    simp [setFields]
  · intro t ht he
    rcases List.mem_append.mp ht with h | h
    · exact absurd he (hnot t h)
    · rw [List.mem_singleton.mp h]
  · have hd := deleteFirst_append e1.newObjectID c []
      ⟨e1.newObjectID, "buy milk", true, truncMs e1.now⟩ rfl hfresh
    simp only [deleteTodo, hp, DeleteOne, h5.2.2.2.2, hin true, if_true, hd]
    simp
  · simp [deleteTodo, hp, DeleteOne, h7.2.2.2.2, hfresh]

theorem example_trace_witness :
    (NoFault envA ∧ NoFault envB ∧ envA.newObjectID ∉ ids [todoB]) ∧
    createTodo envA (bodyOf "buy milk" false) [todoB] =
      (⟨StatusCreated, .M [("message", "Todo created successfully"),
          ("todo_id", "654f1a2b0000000000000001")]⟩, [todoB, todoA]) ∧
    deleteTodo envB "654f1a2b0000000000000001" [todoB] =
      (⟨StatusNotFound, .M [("message", "Todo not found")]⟩, [todoB]) :=
  ⟨by decide,
   (example_trace [todoB] envA envB envA envB envA envB envB (by decide) (by decide)
      (by decide) (by decide) (by decide) (by decide) (by decide) (by decide)).1,
   (example_trace [todoB] envA envB envA envB envA envB envB (by decide) (by decide)
      (by decide) (by decide) (by decide) (by decide) (by decide)
      (by decide)).2.2.2.2.2.2.2.2.2.2⟩

/-! ## What the handlers do to the invariant -/

theorem todoHandlers_store_cases (env : Env) (req : Request) (c : Collection) :
    (todoHandlers env req c).2 = c ∨
    (∃ todo : Todo, req = .create (.decoded todo) ∧ todo.Title ≠ "" ∧
      env.newObjectID ∉ ids c ∧
      (todoHandlers env req c).2 = c ++ [⟨env.newObjectID, todo.Title, false, truncMs env.now⟩]) ∨
    (∃ p objID, ∃ todo : Todo, req = .update p (.decoded todo) ∧ objID ∈ ids c ∧
      (todoHandlers env req c).2 = updateFirst objID (setFields todo.Title todo.Completed) c) ∨
    (∃ p objID, req = .delete p ∧ objID ∈ ids c ∧
      (todoHandlers env req c).2 = deleteFirst objID c) := by
  cases req with
  | fetch => exact Or.inl (fetchTodos_store env c)
  | create body =>
    cases body with
    | malformed err => exact Or.inl rfl
    | decoded todo =>
      by_cases ht : todo.Title = ""
      · exact Or.inl (by simp [todoHandlers, createTodo, ht])
      · cases hf : env.insertErr with
        | some e => exact Or.inl (by simp [todoHandlers, createTodo, ht, InsertOne, hf])
        | none =>
          by_cases hm : env.newObjectID ∈ ids c
          · exact Or.inl (by simp [todoHandlers, createTodo, ht, InsertOne, hf, hm])
          · exact Or.inr (Or.inl ⟨todo, rfl, ht, hm, by
              simp [todoHandlers, createTodo, ht, InsertOne, hf, hm, storedForm]⟩)
  | update idParam body =>
    cases hp : ObjectIDFromHex (TrimSpace idParam) with
    | none => exact Or.inl (by simp [todoHandlers, updateTodo, hp])
    | some objID =>
      cases body with
      | malformed err => exact Or.inl (by simp [todoHandlers, updateTodo, hp])
      | decoded todo =>
        cases hf : env.updateErr with
        | some e => exact Or.inl (by simp [todoHandlers, updateTodo, hp, UpdateOne, hf])
        | none =>
          by_cases hm : objID ∈ ids c
          · exact Or.inr (Or.inr (Or.inl ⟨idParam, objID, todo, rfl, hm, by
              simp [todoHandlers, updateTodo, hp, UpdateOne, hf, hm]⟩))
          · exact Or.inl (by simp [todoHandlers, updateTodo, hp, UpdateOne, hf, hm])
  | delete idParam =>
    cases hp : ObjectIDFromHex (TrimSpace idParam) with
    | none => exact Or.inl (by simp [todoHandlers, deleteTodo, hp])
    | some objID =>
      cases hf : env.deleteErr with
      | some e => exact Or.inl (by simp [todoHandlers, deleteTodo, hp, DeleteOne, hf])
      | none =>
        by_cases hm : objID ∈ ids c
        · exact Or.inr (Or.inr (Or.inr ⟨idParam, objID, rfl, hm, by
            simp [todoHandlers, deleteTodo, hp, DeleteOne, hf, hm]⟩))
        · exact Or.inl (by simp [todoHandlers, deleteTodo, hp, DeleteOne, hf, hm])

/-- The part of the invariant that the code keeps: every request other than an
update whose decoded title is empty preserves it, and every request whatsoever
keeps the identifiers pairwise distinct. -/
theorem invariant_kept_unless_empty_update (env : Env) (req : Request) (c : Collection)
    (hI : StoreInvariant c) :
    (ids (todoHandlers env req c).2).Nodup ∧
    ((∀ p, ∀ todo : Todo, req = .update p (.decoded todo) → todo.Title ≠ "") →
      StoreInvariant (todoHandlers env req c).2) := by
  obtain ⟨hT, hN⟩ := hI
  rcases todoHandlers_store_cases env req c with h | ⟨todo, hr, ht, hm, h⟩ |
    ⟨p, objID, todo, hr, hm, h⟩ | ⟨p, objID, hr, hm, h⟩
  · rw [h]
    exact ⟨hN, fun _ => ⟨hT, hN⟩⟩
  · rw [h]
    have hN1 : (ids (c ++ [(⟨env.newObjectID, todo.Title, false, truncMs env.now⟩ : Todo)])).Nodup := by
      rw [ids_append]
      exact List.nodup_append.mpr ⟨hN, by simp [ids], by
        intro a h1 h2
        simp only [ids, List.map_cons, List.map_nil, List.mem_singleton] at h2
        exact hm (h2 ▸ h1)⟩
    refine ⟨hN1, fun _ => ⟨?_, hN1⟩⟩
    intro t htm
    rcases List.mem_append.mp htm with h1 | h1
    · exact hT t h1
    · rw [List.mem_singleton.mp h1]
      exact ht
  · rw [h]
    have hN1 : (ids (updateFirst objID (setFields todo.Title todo.Completed) c)).Nodup := by
      rw [ids_updateFirst]
      exact hN
    refine ⟨hN1, fun hreq => ⟨?_, hN1⟩⟩
    obtain ⟨l1, t0, l2, hc, _, _, hu⟩ :=
      updateFirst_split objID (setFields todo.Title todo.Completed) c hm
    rw [hu]
    intro t htm
    rcases List.mem_append.mp htm with h1 | h1
    · exact hT t (by rw [hc]; exact List.mem_append_left _ h1)
    · rcases List.mem_cons.mp h1 with h2 | h2
      · rw [h2]
        exact hreq p todo hr
      · exact hT t (by rw [hc]; exact List.mem_append_right _ (List.mem_cons_of_mem _ h2))
  · rw [h]
    obtain ⟨l1, t0, l2, hc, _, _, hu⟩ := deleteFirst_split objID c hm
    have hN1 := (deleteFirst_keys objID c hN hm).1
    refine ⟨hN1, fun _ => ⟨?_, hN1⟩⟩
    rw [hu]
    intro t htm
    rcases List.mem_append.mp htm with h1 | h1
    · exact hT t (by rw [hc]; exact List.mem_append_left _ h1)
    · exact hT t (by rw [hc]; exact List.mem_append_right _ (List.mem_cons_of_mem _ h1))

end TodoList
